import Mathlib

/-
  Verification of the consensus layer of a toy blockchain
  (file src/c2_blockchain/p3_consensus.rs).

  The Rust code is shallowly embedded:
  * u64 values become Nat, with additions wrapped by an explicit mod 2^64;
  * the digest function, a swappable external collaborator of the chain
    core (declared as crate level code outside this module), is a parameter
    hash : Header → Nat of every operation;
  * the thread local random generator feeding the miner becomes an explicit
    stream of nonce draws Nat → Nat, and the miner's retry recursion is
    expressed with an explicit fuel bound, returning none while no drawn
    nonce has produced a digest below the threshold.
-/

/-- Wrap-around modulus of 64-bit unsigned arithmetic. -/
def U64 : Nat := 2 ^ 64

/-- `const THRESHOLD: u64 = u64::max_value() / 100;` -/
def THRESHOLD : Nat := (U64 - 1) / 100

/-- `const FORK_HEIGHT: u64 = 2;` -/
def FORK_HEIGHT : Nat := 2

/-- The block header, mirroring `struct Header` field by field. -/
structure Header where
  parent : Nat
  height : Nat
  extrinsic : Nat
  state : Nat
  consensus_digest : Nat
  deriving Repr, DecidableEq

/-- `Header::genesis` — all five fields are zero. -/
def Header.genesis : Header :=
  { parent := 0, height := 0, extrinsic := 0, state := 0, consensus_digest := 0 }

/-- `is_block_valid` — the four invariants of a parent→child transition. -/
def is_block_valid (hash : Header → Nat) (block prev : Header) : Bool :=
  block.height == (prev.height + 1) % U64
    && block.state == (prev.state + block.extrinsic) % U64
    && block.parent == hash prev
    && decide (hash block < THRESHOLD)

/-- `enum VerificationMethod` — the closed tag over which `verify_block`
dispatches. -/
inductive VerificationMethod where
  | Threshold : Header → Header → VerificationMethod
  | Even : Header → Header → VerificationMethod
  | Odd : Header → Header → VerificationMethod

/-- `verify_block` — dispatch on the verification method. -/
def verify_block (hash : Header → Nat) : VerificationMethod → Bool
  | VerificationMethod.Threshold block prev => is_block_valid hash block prev
  | VerificationMethod.Even block prev =>
      is_block_valid hash block prev && block.state % 2 == 0
  | VerificationMethod.Odd block prev =>
      is_block_valid hash block prev && block.state % 2 != 0

/-- `Header::verify_sub_chain` — walk the candidates keeping a `prev`
header that starts at `self`; an early `return false` at the first failing
block becomes the `else false` branch. -/
def Header.verify_sub_chain (hash : Header → Nat) : Header → List Header → Bool
  | _, [] => true
  | prev, block :: rest =>
      if verify_block hash (VerificationMethod.Threshold block prev) then
        Header.verify_sub_chain hash block rest
      else false

/-- `Header::verify_sub_chain_even` — blocks above `FORK_HEIGHT` are checked
with the `Even` method, the others with the plain threshold method. -/
def Header.verify_sub_chain_even (hash : Header → Nat) : Header → List Header → Bool
  | _, [] => true
  | prev, block :: rest =>
      if block.height > FORK_HEIGHT then
        if verify_block hash (VerificationMethod.Even block prev) then
          Header.verify_sub_chain_even hash block rest
        else false
      else
        if verify_block hash (VerificationMethod.Threshold block prev) then
          Header.verify_sub_chain_even hash block rest
        else false

/-- `Header::verify_sub_chain_odd` — blocks above `FORK_HEIGHT` are checked
with the `Odd` method, the others with the plain threshold method. -/
def Header.verify_sub_chain_odd (hash : Header → Nat) : Header → List Header → Bool
  | _, [] => true
  | prev, block :: rest =>
      if block.height > FORK_HEIGHT then
        if verify_block hash (VerificationMethod.Odd block prev) then
          Header.verify_sub_chain_odd hash block rest
        else false
      else
        if verify_block hash (VerificationMethod.Threshold block prev) then
          Header.verify_sub_chain_odd hash block rest
        else false

/-- The body of `Header::child`: assemble a candidate from one nonce draw,
accept it when its digest is below `THRESHOLD`, otherwise retry on the rest
of the draw stream.  The retry recursion of the source has no bound, so the
embedding carries an explicit fuel count and also returns the unconsumed
part of the draw stream, which lets successive mining calls share one
stream the way successive `child` calls share `thread_rng`. -/
def mine (hash : Header → Nat) (p : Header) (extrinsic : Nat) :
    (Nat → Nat) → Nat → Option (Header × (Nat → Nat))
  | _, 0 => none
  | nonces, fuel + 1 =>
      let cand : Header :=
        { parent := hash p
          height := (p.height + 1) % U64
          extrinsic := extrinsic
          state := (p.state + extrinsic) % U64
          consensus_digest := nonces 0 % U64 }
      if hash cand < THRESHOLD then some (cand, fun i => nonces (i + 1))
      else mine hash p extrinsic (fun i => nonces (i + 1)) fuel

/-- `Header::child` — the mined header, when a nonce is found in time. -/
def Header.child (hash : Header → Nat) (nonces : Nat → Nat) (p : Header)
    (extrinsic : Nat) (fuel : Nat) : Option Header :=
  (mine hash p extrinsic nonces fuel).map Prod.fst

/-- `build_contentious_forked_chain` — genesis, then children with
extrinsics 2, 5 (the shared part up to the fork height), 1, 2 (the even
suffix) and 2, 4 (the odd suffix), in the source's mining order. -/
def build_contentious_forked_chain (hash : Header → Nat) (nonces : Nat → Nat)
    (fuel : Nat) : Option (List Header × List Header × List Header) :=
  (mine hash Header.genesis 2 nonces fuel).bind fun (a1, ns1) =>
  (mine hash a1 5 ns1 fuel).bind fun (a2, ns2) =>
  (mine hash a2 1 ns2 fuel).bind fun (e1, ns3) =>
  (mine hash e1 2 ns3 fuel).bind fun (e2, ns4) =>
  (mine hash a2 2 ns4 fuel).bind fun (o1, ns5) =>
  (mine hash o1 4 ns5 fuel).map fun (o2, _) =>
  ([Header.genesis, a1, a2], [e1, e2], [o1, o2])

/-- Modelled from the spec: the digest collaborator (`crate::hash`, not part
of this module) is a deterministic function from headers to 64-bit values,
injectable for deterministic tests.  This stand-in instance is used to
instantiate witnesses on concrete inputs. -/
def testHash (h : Header) : Nat :=
  (h.parent + 2 * h.height + 3 * h.extrinsic + 5 * h.state
    + 7 * h.consensus_digest) % U64

/-- A digest instance that never meets the threshold, exercising the
miner's retry path. -/
def bigHash : Header → Nat := fun _ => THRESHOLD

/-- All blocks of the chain above the fork height have even state. -/
abbrev post_fork_even (chain : List Header) : Prop :=
  ∀ b ∈ chain, FORK_HEIGHT < b.height → b.state % 2 = 0

/-- All blocks of the chain above the fork height have odd state. -/
abbrev post_fork_odd (chain : List Header) : Prop :=
  ∀ b ∈ chain, FORK_HEIGHT < b.height → b.state % 2 = 1

/-- The chain has at least one block above the fork height. -/
abbrev has_post_fork (chain : List Header) : Prop :=
  ∃ b ∈ chain, FORK_HEIGHT < b.height

/-- `b'` agrees with `b` except in exactly one of the fields height, state
or parent. -/
abbrev tampers_one_core_field (b b' : Header) : Prop :=
  b'.extrinsic = b.extrinsic ∧ b'.consensus_digest = b.consensus_digest ∧
    ((b'.height ≠ b.height ∧ b'.state = b.state ∧ b'.parent = b.parent) ∨
     (b'.state ≠ b.state ∧ b'.height = b.height ∧ b'.parent = b.parent) ∨
     (b'.parent ≠ b.parent ∧ b'.height = b.height ∧ b'.state = b.state))

-- Concrete headers used by witnesses and counterexamples, all valid under
-- the stand-in digest `testHash`.

def blkE1 : Header :=
  { parent := 0, height := 1, extrinsic := 2, state := 2, consensus_digest := 0 }

def blkE2 : Header :=
  { parent := 18, height := 2, extrinsic := 1, state := 3, consensus_digest := 0 }

def blkE3 : Header :=
  { parent := 40, height := 3, extrinsic := 1, state := 4, consensus_digest := 0 }

def blkO3 : Header :=
  { parent := 40, height := 3, extrinsic := 2, state := 5, consensus_digest := 0 }

def chainE : List Header := [blkE1, blkE2, blkE3]

def chainO : List Header := [blkE1, blkE2, blkO3]

def blk1 : Header :=
  { parent := 0, height := 1, extrinsic := 5, state := 5, consensus_digest := 0 }

def blk1height : Header :=
  { parent := 0, height := 9, extrinsic := 5, state := 5, consensus_digest := 0 }

def blk1digest : Header :=
  { parent := 0, height := 1, extrinsic := 5, state := 5, consensus_digest := 1 }

def blkF2 : Header :=
  { parent := 0, height := 2, extrinsic := 0, state := 0, consensus_digest := 0 }

def blkF3 : Header :=
  { parent := 0, height := 3, extrinsic := 0, state := 1, consensus_digest := 0 }

-- The concrete forked chains mined by the builder under `testHash` with the
-- constant-zero nonce stream.

def fkA1 : Header :=
  { parent := 0, height := 1, extrinsic := 2, state := 2, consensus_digest := 0 }

def fkA2 : Header :=
  { parent := 18, height := 2, extrinsic := 5, state := 7, consensus_digest := 0 }

def fkE1 : Header :=
  { parent := 72, height := 3, extrinsic := 1, state := 8, consensus_digest := 0 }

def fkE2 : Header :=
  { parent := 121, height := 4, extrinsic := 2, state := 10, consensus_digest := 0 }

def fkO1 : Header :=
  { parent := 72, height := 3, extrinsic := 2, state := 9, consensus_digest := 0 }

def fkO2 : Header :=
  { parent := 129, height := 4, extrinsic := 4, state := 13, consensus_digest := 0 }

-- Basic unfolding lemmas for the three verifiers.

lemma verify_nil (hash : Header → Nat) (prev : Header) :
    Header.verify_sub_chain hash prev [] = true := rfl

lemma verify_even_nil (hash : Header → Nat) (prev : Header) :
    Header.verify_sub_chain_even hash prev [] = true := rfl

lemma verify_odd_nil (hash : Header → Nat) (prev : Header) :
    Header.verify_sub_chain_odd hash prev [] = true := rfl

lemma verify_cons (hash : Header → Nat) (prev b : Header) (rest : List Header) :
    Header.verify_sub_chain hash prev (b :: rest) =
      (is_block_valid hash b prev && Header.verify_sub_chain hash b rest) := by
  cases h : is_block_valid hash b prev <;>
    simp [Header.verify_sub_chain, verify_block, h]

lemma verify_even_cons (hash : Header → Nat) (prev b : Header) (rest : List Header) :
    Header.verify_sub_chain_even hash prev (b :: rest) =
      ((if FORK_HEIGHT < b.height then
          verify_block hash (VerificationMethod.Even b prev)
        else is_block_valid hash b prev)
        && Header.verify_sub_chain_even hash b rest) := by
  by_cases hh : FORK_HEIGHT < b.height
  · cases hs : verify_block hash (VerificationMethod.Even b prev) <;>
      simp [Header.verify_sub_chain_even, hh, hs]
  · cases hs : is_block_valid hash b prev <;>
      simp [Header.verify_sub_chain_even, verify_block, hh, hs]

lemma verify_odd_cons (hash : Header → Nat) (prev b : Header) (rest : List Header) :
    Header.verify_sub_chain_odd hash prev (b :: rest) =
      ((if FORK_HEIGHT < b.height then
          verify_block hash (VerificationMethod.Odd b prev)
        else is_block_valid hash b prev)
        && Header.verify_sub_chain_odd hash b rest) := by
  by_cases hh : FORK_HEIGHT < b.height
  · cases hs : verify_block hash (VerificationMethod.Odd b prev) <;>
      simp [Header.verify_sub_chain_odd, hh, hs]
  · cases hs : is_block_valid hash b prev <;>
      simp [Header.verify_sub_chain_odd, verify_block, hh, hs]

/-- The validator is the conjunction of the four invariants. -/
lemma ibv_iff (hash : Header → Nat) (b p : Header) :
    is_block_valid hash b p = true ↔
      (b.height = (p.height + 1) % U64 ∧ b.state = (p.state + b.extrinsic) % U64 ∧
        b.parent = hash p ∧ hash b < THRESHOLD) := by
  simp [is_block_valid, Bool.and_eq_true, and_assoc]

lemma verify_chain_iff (hash : Header → Nat) (root : Header) (chain : List Header) :
    Header.verify_sub_chain hash root chain = true ↔
      List.Chain (fun p b => is_block_valid hash b p = true) root chain := by
  induction chain generalizing root with
  | nil => simp [verify_nil]
  | cons b rest ih => simp [verify_cons, List.chain_cons, ih]

-- Soundness of the miner.

lemma mine_sound (hash : Header → Nat) (p : Header) (e : Nat) :
    ∀ (fuel : Nat) (ns ns' : Nat → Nat) (h : Header),
      mine hash p e ns fuel = some (h, ns') →
      h.parent = hash p ∧ h.height = (p.height + 1) % U64 ∧ h.extrinsic = e ∧
        h.state = (p.state + e) % U64 ∧ hash h < THRESHOLD := by
  intro fuel
  induction fuel with
  | zero => intro ns ns' h hm; simp [mine] at hm
  | succ n ih =>
    intro ns ns' h hm
    rw [mine] at hm
    split at hm
    · rw [Option.some.injEq, Prod.mk.injEq] at hm
      obtain ⟨hh, -⟩ := hm
      subst hh
      refine ⟨rfl, rfl, rfl, rfl, ?_⟩
      assumption
    · exact ih _ _ _ hm

lemma ibv_of_mine (hash : Header → Nat) (p : Header) (e : Nat) (fuel : Nat)
    (ns ns' : Nat → Nat) (h : Header)
    (hm : mine hash p e ns fuel = some (h, ns')) :
    is_block_valid hash h p = true := by
  obtain ⟨h1, h2, h3, h4, h5⟩ := mine_sound hash p e fuel ns ns' h hm
  rw [ibv_iff]
  exact ⟨h2, by rw [h4, h3], h1, h5⟩

/-- When the digest never falls below the threshold, no amount of fuel makes
the miner return. -/
lemma mine_stuck (hash : Header → Nat) (p : Header) (e : Nat)
    (hbig : ∀ x : Header, THRESHOLD ≤ hash x) :
    ∀ (fuel : Nat) (ns : Nat → Nat), mine hash p e ns fuel = none := by
  intro fuel
  induction fuel with
  | zero => intro ns; rfl
  | succ n ih =>
    intro ns
    rw [mine]
    rw [if_neg (Nat.not_lt.mpr (hbig _))]
    exact ih _

-- C10 helpers: each partisan step implies the threshold step.

lemma even_implies_base (hash : Header → Nat) (root : Header) (chain : List Header) :
    Header.verify_sub_chain_even hash root chain = true →
      Header.verify_sub_chain hash root chain = true := by
  induction chain generalizing root with
  | nil => intro _; rfl
  | cons b rest ih =>
    rw [verify_even_cons, verify_cons, Bool.and_eq_true, Bool.and_eq_true]
    rintro ⟨hstep, hrest⟩
    refine ⟨?_, ih b hrest⟩
    by_cases hh : FORK_HEIGHT < b.height
    · rw [if_pos hh, verify_block, Bool.and_eq_true] at hstep
      exact hstep.1
    · rw [if_neg hh] at hstep
      exact hstep

lemma odd_implies_base (hash : Header → Nat) (root : Header) (chain : List Header) :
    Header.verify_sub_chain_odd hash root chain = true →
      Header.verify_sub_chain hash root chain = true := by
  induction chain generalizing root with
  | nil => intro _; rfl
  | cons b rest ih =>
    rw [verify_odd_cons, verify_cons, Bool.and_eq_true, Bool.and_eq_true]
    rintro ⟨hstep, hrest⟩
    refine ⟨?_, ih b hrest⟩
    by_cases hh : FORK_HEIGHT < b.height
    · rw [if_pos hh, verify_block, Bool.and_eq_true] at hstep
      exact hstep.1
    · rw [if_neg hh] at hstep
      exact hstep

-- The claims.

/-- Claim C1: for every parent `p` and extrinsic `e`, a header returned by
`child` satisfies all four invariants against `p`: height is the wrapped
successor of the parent height, state is the wrapped sum of the parent
state and the extrinsic, the parent field is the parent's digest, and the
header's own digest is strictly below `THRESHOLD`; hence `is_block_valid`
accepts it. -/
theorem child_satisfies_invariants (hash : Header → Nat) (nonces : Nat → Nat)
    (p : Header) (e fuel : Nat) (h : Header)
    (hc : Header.child hash nonces p e fuel = some h) :
    h.height = (p.height + 1) % U64 ∧ h.state = (p.state + e) % U64 ∧
      h.parent = hash p ∧ hash h < THRESHOLD ∧ is_block_valid hash h p = true := by
  unfold Header.child at hc
  rw [Option.map_eq_some'] at hc
  obtain ⟨⟨h0, ns'⟩, hm, hfst⟩ := hc
  cases hfst
  obtain ⟨h1, h2, h3, h4, h5⟩ := mine_sound hash p e fuel nonces ns' h0 hm
  exact ⟨h2, h4, h1, h5, ibv_of_mine hash p e fuel nonces ns' h0 hm⟩

/-- Witness for C1 at a concrete input: with the stand-in digest, nonce
stream constantly 0 and one unit of fuel, mining from genesis with
extrinsic 5 yields a concrete valid block. -/
theorem child_satisfies_invariants_witness :
    Header.child testHash (fun _ => 0) Header.genesis 5 1 =
        some { parent := 0, height := 1, extrinsic := 5, state := 5,
               consensus_digest := 0 } ∧
      is_block_valid testHash
        { parent := 0, height := 1, extrinsic := 5, state := 5,
          consensus_digest := 0 } Header.genesis = true :=
  ⟨by decide,
   (child_satisfies_invariants testHash (fun _ => 0) Header.genesis 5 1 _
      (by decide)).2.2.2.2⟩

/-- Claim C2: `verify_sub_chain` is trivially true on an empty candidate
list for every root; on a cons it is the conjunction of the base validity
of the head against the running `prev` and the verification of the tail
with the head as new `prev` (so it is false from the first failing
candidate on); over any candidate list it returns true exactly when every
candidate passes the base predicate against its predecessor. -/
theorem verify_sub_chain_spec :
    (∀ (hash : Header → Nat) (root : Header),
        Header.verify_sub_chain hash root [] = true) ∧
    (∀ (hash : Header → Nat) (root b : Header) (rest : List Header),
        Header.verify_sub_chain hash root (b :: rest) =
          (is_block_valid hash b root && Header.verify_sub_chain hash b rest)) ∧
    (∀ (hash : Header → Nat) (root : Header) (chain : List Header),
        Header.verify_sub_chain hash root chain = true ↔
          List.Chain (fun p b => is_block_valid hash b p = true) root chain) :=
  ⟨verify_nil, verify_cons, verify_chain_iff⟩

/-- Claim C5: `is_block_valid` is a total boolean predicate (in the wrapping
64-bit model it returns one of the two boolean values on every pair of
headers, however malformed), and it returns true exactly when the four
invariants hold, so any tampered input violating one of them yields
false. -/
theorem is_block_valid_total_correct :
    ∀ (hash : Header → Nat) (b p : Header),
      (is_block_valid hash b p = true ∨ is_block_valid hash b p = false) ∧
        (is_block_valid hash b p = true ↔
          (b.height = (p.height + 1) % U64 ∧
            b.state = (p.state + b.extrinsic) % U64 ∧
            b.parent = hash p ∧ hash b < THRESHOLD)) := by
  intro hash b p
  refine ⟨?_, ibv_iff hash b p⟩
  cases h : is_block_valid hash b p
  · exact Or.inr rfl
  · exact Or.inl rfl

/-- Claim C9: the genesis header has all five fields zero, and it is exempt
from the proof-of-work invariant: even under a digest assignment that puts
the genesis digest at or above `THRESHOLD`, genesis still verifies the
empty sub-chain. -/
theorem genesis_spec :
    Header.genesis.height = 0 ∧ Header.genesis.parent = 0 ∧
      Header.genesis.extrinsic = 0 ∧ Header.genesis.state = 0 ∧
      Header.genesis.consensus_digest = 0 ∧
      (∀ hash : Header → Nat, THRESHOLD ≤ hash Header.genesis →
        Header.verify_sub_chain hash Header.genesis [] = true) :=
  ⟨rfl, rfl, rfl, rfl, rfl, fun _ _ => rfl⟩

/-- Witness for C9: under `bigHash` the genesis digest equals `THRESHOLD`
(so it fails the proof-of-work bound) and genesis still verifies the empty
sub-chain. -/
theorem genesis_spec_witness :
    THRESHOLD ≤ bigHash Header.genesis ∧
      Header.verify_sub_chain bigHash Header.genesis [] = true :=
  ⟨Nat.le_refl _, genesis_spec.2.2.2.2.2 bigHash (Nat.le_refl _)⟩

/-- Claim C10: each partisan verifier is at least as strong as the base
verifier: on any root and candidate list, acceptance by the even (resp.
odd) policy implies acceptance by the threshold-only policy. -/
theorem partisan_implies_base :
    ∀ (hash : Header → Nat) (root : Header) (chain : List Header),
      (Header.verify_sub_chain_even hash root chain = true →
        Header.verify_sub_chain hash root chain = true) ∧
      (Header.verify_sub_chain_odd hash root chain = true →
        Header.verify_sub_chain hash root chain = true) :=
  fun hash root chain =>
    ⟨even_implies_base hash root chain, odd_implies_base hash root chain⟩

/-- Witness for C10: a concrete chain accepted by the even policy, on which
the theorem yields acceptance by the base policy. -/
theorem partisan_implies_base_witness :
    Header.verify_sub_chain_even testHash Header.genesis chainE = true ∧
      Header.verify_sub_chain testHash Header.genesis chainE = true :=
  ⟨by decide,
   (partisan_implies_base testHash Header.genesis chainE).1 (by decide)⟩

/-- Claim C3: in both partisan verifiers the fork-height comparison is
strict: a head block of height at most `FORK_HEIGHT` contributes exactly
the unconditional threshold check, while a head block of height strictly
above `FORK_HEIGHT` additionally contributes the parity requirement (even
state for the even policy, odd state for the odd policy). -/
theorem fork_height_strict (hash : Header → Nat) (prev b : Header)
    (rest : List Header) :
    (b.height ≤ FORK_HEIGHT →
      Header.verify_sub_chain_even hash prev (b :: rest) =
          (is_block_valid hash b prev
            && Header.verify_sub_chain_even hash b rest) ∧
        Header.verify_sub_chain_odd hash prev (b :: rest) =
          (is_block_valid hash b prev
            && Header.verify_sub_chain_odd hash b rest)) ∧
    (FORK_HEIGHT < b.height →
      Header.verify_sub_chain_even hash prev (b :: rest) =
          ((is_block_valid hash b prev && (b.state % 2 == 0))
            && Header.verify_sub_chain_even hash b rest) ∧
        Header.verify_sub_chain_odd hash prev (b :: rest) =
          ((is_block_valid hash b prev && (b.state % 2 != 0))
            && Header.verify_sub_chain_odd hash b rest)) := by
  constructor
  · intro hle
    have hh : ¬ FORK_HEIGHT < b.height := Nat.not_lt.mpr hle
    exact ⟨by rw [verify_even_cons, if_neg hh], by rw [verify_odd_cons, if_neg hh]⟩
  · intro hgt
    exact ⟨by rw [verify_even_cons, if_pos hgt, verify_block],
           by rw [verify_odd_cons, if_pos hgt, verify_block]⟩

/-- Witness for C3: the boundary block of height exactly `FORK_HEIGHT` is
judged by the threshold-only rule in both partisan verifiers, and a block
of height `FORK_HEIGHT + 1` picks up the parity conjunct. -/
theorem fork_height_strict_witness :
    (Header.verify_sub_chain_even testHash Header.genesis (blkF2 :: []) =
        (is_block_valid testHash blkF2 Header.genesis
          && Header.verify_sub_chain_even testHash blkF2 []) ∧
      Header.verify_sub_chain_odd testHash Header.genesis (blkF2 :: []) =
        (is_block_valid testHash blkF2 Header.genesis
          && Header.verify_sub_chain_odd testHash blkF2 [])) ∧
    (Header.verify_sub_chain_even testHash Header.genesis (blkF3 :: []) =
        ((is_block_valid testHash blkF3 Header.genesis && (blkF3.state % 2 == 0))
          && Header.verify_sub_chain_even testHash blkF3 []) ∧
      Header.verify_sub_chain_odd testHash Header.genesis (blkF3 :: []) =
        ((is_block_valid testHash blkF3 Header.genesis && (blkF3.state % 2 != 0))
          && Header.verify_sub_chain_odd testHash blkF3 [])) :=
  ⟨(fork_height_strict testHash Header.genesis blkF2 []).1 (by decide),
   (fork_height_strict testHash Header.genesis blkF3 []).2 (by decide)⟩

-- C7 helpers: tampering one of height, state or parent breaks the
-- validator, and hence the chain from that block on.

lemma ibv_tampered (hash : Header → Nat) (prev b b' : Header)
    (ht : tampers_one_core_field b b')
    (hv : is_block_valid hash b prev = true) :
    is_block_valid hash b' prev = false := by
  obtain ⟨hx, -, hcase⟩ := ht
  rw [ibv_iff] at hv
  obtain ⟨h1, h2, h3, -⟩ := hv
  cases hb' : is_block_valid hash b' prev
  · rfl
  · exfalso
    rw [ibv_iff] at hb'
    obtain ⟨g1, g2, g3, -⟩ := hb'
    rcases hcase with ⟨hne, -, -⟩ | ⟨hne, -, -⟩ | ⟨hne, -, -⟩
    · exact hne (g1.trans h1.symm)
    · rw [hx] at g2
      exact hne (g2.trans h2.symm)
    · exact hne (g3.trans h3.symm)

lemma verify_tampered (hash : Header → Nat) (root : Header)
    (pre post : List Header) (b b' : Header)
    (ht : tampers_one_core_field b b')
    (hv : Header.verify_sub_chain hash root (pre ++ b :: post) = true) :
    Header.verify_sub_chain hash root (pre ++ b' :: post) = false := by
  induction pre generalizing root with
  | nil =>
    rw [List.nil_append] at hv ⊢
    rw [verify_cons, Bool.and_eq_true] at hv
    rw [verify_cons, ibv_tampered hash root b b' ht hv.1, Bool.false_and]
  | cons a pre' ih =>
    rw [List.cons_append] at hv ⊢
    rw [verify_cons, Bool.and_eq_true] at hv
    rw [verify_cons, hv.1, Bool.true_and]
    exact ih a hv.2

/-- Claim C7 amended: in an accepted chain, changing any single one of the
fields `parent`, `height` or `state` of any one block to a different value
makes `verify_sub_chain` return false on the modified chain.  (Changing
only `consensus_digest` need not invalidate the chain: the reassembled
block can still hash below the threshold, see the counterexample.) -/
theorem tamper_core_field_invalidates (hash : Header → Nat) (root : Header)
    (pre post : List Header) (b b' : Header)
    (ht : tampers_one_core_field b b')
    (hv : Header.verify_sub_chain hash root (pre ++ b :: post) = true) :
    Header.verify_sub_chain hash root (pre ++ b' :: post) = false :=
  verify_tampered hash root pre post b b' ht hv

/-- Witness for C7 amended: a concrete one-block chain accepted under the
stand-in digest is rejected after its height is changed. -/
theorem tamper_core_field_invalidates_witness :
    tampers_one_core_field blk1 blk1height ∧
      Header.verify_sub_chain testHash Header.genesis ([] ++ blk1 :: []) = true ∧
      Header.verify_sub_chain testHash Header.genesis ([] ++ blk1height :: []) = false :=
  ⟨by decide, by decide,
   tamper_core_field_invalidates testHash Header.genesis [] [] blk1 blk1height
     (by decide) (by decide)⟩

/-- Claim C7 counterexample: changing only the `consensus_digest` of the
one block of an accepted chain to a different value can leave the chain
accepted, because the tampered block can still hash below the threshold
(the repository's own `bc_3_cant_verify_invalid_pow` test remarks this
false positive). -/
theorem tamper_digest_counterexample :
    Header.verify_sub_chain testHash Header.genesis [blk1] = true ∧
      blk1digest.consensus_digest ≠ blk1.consensus_digest ∧
      blk1digest.parent = blk1.parent ∧ blk1digest.height = blk1.height ∧
      blk1digest.extrinsic = blk1.extrinsic ∧ blk1digest.state = blk1.state ∧
      Header.verify_sub_chain testHash Header.genesis [blk1digest] = true := by
  decide

-- C4 helpers: a base-valid chain with the right post-fork parities is
-- accepted by the matching partisan policy and, once it actually has a
-- post-fork block, rejected by the opposite one.

lemma even_of_base (hash : Header → Nat) (root : Header) (chain : List Header) :
    Header.verify_sub_chain hash root chain = true → post_fork_even chain →
      Header.verify_sub_chain_even hash root chain = true := by
  induction chain generalizing root with
  | nil => intro _ _; rfl
  | cons b rest ih =>
    intro hv hpf
    rw [verify_cons, Bool.and_eq_true] at hv
    rw [verify_even_cons]
    have hstep : (if FORK_HEIGHT < b.height then
        verify_block hash (VerificationMethod.Even b root)
      else is_block_valid hash b root) = true := by
      by_cases hh : FORK_HEIGHT < b.height
      · rw [if_pos hh, verify_block, Bool.and_eq_true]
        refine ⟨hv.1, ?_⟩
        rw [hpf b (List.mem_cons_self b rest) hh]
        rfl
      · rw [if_neg hh]
        exact hv.1
    rw [hstep, Bool.true_and]
    exact ih b hv.2 fun x hx hhx => hpf x (List.mem_cons_of_mem b hx) hhx

lemma odd_of_base (hash : Header → Nat) (root : Header) (chain : List Header) :
    Header.verify_sub_chain hash root chain = true → post_fork_odd chain →
      Header.verify_sub_chain_odd hash root chain = true := by
  induction chain generalizing root with
  | nil => intro _ _; rfl
  | cons b rest ih =>
    intro hv hpf
    rw [verify_cons, Bool.and_eq_true] at hv
    rw [verify_odd_cons]
    have hstep : (if FORK_HEIGHT < b.height then
        verify_block hash (VerificationMethod.Odd b root)
      else is_block_valid hash b root) = true := by
      by_cases hh : FORK_HEIGHT < b.height
      · rw [if_pos hh, verify_block, Bool.and_eq_true]
        refine ⟨hv.1, ?_⟩
        rw [hpf b (List.mem_cons_self b rest) hh]
        rfl
      · rw [if_neg hh]
        exact hv.1
    rw [hstep, Bool.true_and]
    exact ih b hv.2 fun x hx hhx => hpf x (List.mem_cons_of_mem b hx) hhx

lemma odd_false_of_even (hash : Header → Nat) (root : Header) (chain : List Header) :
    Header.verify_sub_chain hash root chain = true → post_fork_even chain →
      has_post_fork chain →
      Header.verify_sub_chain_odd hash root chain = false := by
  induction chain generalizing root with
  | nil =>
    rintro - - ⟨x, hx, -⟩
    exact absurd hx (List.not_mem_nil x)
  | cons b rest ih =>
    intro hv hpf hex
    rw [verify_cons, Bool.and_eq_true] at hv
    rw [verify_odd_cons]
    by_cases hh : FORK_HEIGHT < b.height
    · rw [if_pos hh, verify_block, hpf b (List.mem_cons_self b rest) hh]
      simp
    · rw [if_neg hh, hv.1, Bool.true_and]
      refine ih b hv.2 (fun x hx hhx => hpf x (List.mem_cons_of_mem b hx) hhx) ?_
      rcases hex with ⟨x, hx, hgt⟩
      rcases List.mem_cons.mp hx with rfl | hx'
      · exact absurd hgt hh
      · exact ⟨x, hx', hgt⟩

lemma even_false_of_odd (hash : Header → Nat) (root : Header) (chain : List Header) :
    Header.verify_sub_chain hash root chain = true → post_fork_odd chain →
      has_post_fork chain →
      Header.verify_sub_chain_even hash root chain = false := by
  induction chain generalizing root with
  | nil =>
    rintro - - ⟨x, hx, -⟩
    exact absurd hx (List.not_mem_nil x)
  | cons b rest ih =>
    intro hv hpf hex
    rw [verify_cons, Bool.and_eq_true] at hv
    rw [verify_even_cons]
    by_cases hh : FORK_HEIGHT < b.height
    · rw [if_pos hh, verify_block, hpf b (List.mem_cons_self b rest) hh]
      simp
    · rw [if_neg hh, hv.1, Bool.true_and]
      refine ih b hv.2 (fun x hx hhx => hpf x (List.mem_cons_of_mem b hx) hhx) ?_
      rcases hex with ⟨x, hx, hgt⟩
      rcases List.mem_cons.mp hx with rfl | hx'
      · exact absurd hgt hh
      · exact ⟨x, hx', hgt⟩

/-- Claim C4 counterexample: a base-valid one-block chain with no block
above the fork height vacuously has all post-fork states even (and all
odd), yet both partisan verifiers accept it, so neither the even-chain
half nor the odd-chain half of the claim can conclude rejection. -/
theorem partisan_reject_counterexample :
    Header.verify_sub_chain testHash Header.genesis [blkE1] = true ∧
      post_fork_even [blkE1] ∧ post_fork_odd [blkE1] ∧
      Header.verify_sub_chain_odd testHash Header.genesis [blkE1] = true ∧
      Header.verify_sub_chain_even testHash Header.genesis [blkE1] = true := by
  decide

/-- Claim C4 amended: for every chain valid under the threshold-only rule
whose post-fork states are all even, the even verifier accepts, and the odd
verifier rejects provided the chain contains at least one block above the
fork height; symmetrically for all-odd post-fork states. -/
theorem partisan_accept_reject_amended (hash : Header → Nat) (root : Header)
    (chain : List Header)
    (hv : Header.verify_sub_chain hash root chain = true) :
    (post_fork_even chain →
      Header.verify_sub_chain_even hash root chain = true ∧
        (has_post_fork chain →
          Header.verify_sub_chain_odd hash root chain = false)) ∧
    (post_fork_odd chain →
      Header.verify_sub_chain_odd hash root chain = true ∧
        (has_post_fork chain →
          Header.verify_sub_chain_even hash root chain = false)) :=
  ⟨fun hpf => ⟨even_of_base hash root chain hv hpf,
               fun hex => odd_false_of_even hash root chain hv hpf hex⟩,
   fun hpf => ⟨odd_of_base hash root chain hv hpf,
               fun hex => even_false_of_odd hash root chain hv hpf hex⟩⟩

/-- Witness for C4 amended: concrete base-valid chains with a genuine
post-fork block, one all-even and one all-odd past the fork, with the
expected accept/reject outcomes. -/
theorem partisan_accept_reject_amended_witness :
    (Header.verify_sub_chain testHash Header.genesis chainE = true ∧
      post_fork_even chainE ∧ has_post_fork chainE ∧
      Header.verify_sub_chain_even testHash Header.genesis chainE = true ∧
      Header.verify_sub_chain_odd testHash Header.genesis chainE = false) ∧
    (Header.verify_sub_chain testHash Header.genesis chainO = true ∧
      post_fork_odd chainO ∧
      Header.verify_sub_chain_odd testHash Header.genesis chainO = true ∧
      Header.verify_sub_chain_even testHash Header.genesis chainO = false) :=
  ⟨⟨by decide, by decide, by decide,
    ((partisan_accept_reject_amended testHash Header.genesis chainE
        (by decide)).1 (by decide)).1,
    ((partisan_accept_reject_amended testHash Header.genesis chainE
        (by decide)).1 (by decide)).2 (by decide)⟩,
   ⟨by decide, by decide,
    ((partisan_accept_reject_amended testHash Header.genesis chainO
        (by decide)).2 (by decide)).1,
    ((partisan_accept_reject_amended testHash Header.genesis chainO
        (by decide)).2 (by decide)).2 (by decide)⟩⟩

-- C6 helper: an exhausted miner propagates to `child`.

lemma child_stuck (hash : Header → Nat) (p : Header) (e : Nat)
    (hbig : ∀ x : Header, THRESHOLD ≤ hash x) (ns : Nat → Nat) (fuel : Nat) :
    Header.child hash ns p e fuel = none := by
  unfold Header.child
  rw [mine_stuck hash p e hbig fuel ns]
  rfl

/-- Claim C6 counterexample: `child` has no attempt ceiling and no
mining-exhausted result.  Under a digest that never meets the threshold
(the concrete `bigHash`, from parent `genesis` with extrinsic 0), the
source's retry recursion never returns: in the fuel-indexed embedding no
amount of fuel makes `child` produce anything, so no configured maximum
number of attempts bounds the search. -/
theorem child_unbounded_counterexample :
    ¬ ∃ fuel : Nat,
        (Header.child bigHash (fun _ => 0) Header.genesis 0 fuel).isSome = true := by
  rintro ⟨fuel, hf⟩
  rw [child_stuck bigHash Header.genesis 0 (fun _ => Nat.le_refl _)
      (fun _ => 0) fuel] at hf
  exact Bool.false_ne_true hf

/-- Claim C6 amended: the source's `child` retries unboundedly and never
surfaces a mining-exhausted failure; it returns only by finding a nonce
whose digest beats the threshold.  In the fuel-indexed embedding, whenever
the digest never falls below `THRESHOLD` the search is still running after
every finite number of attempts. -/
theorem child_no_ceiling_amended (hash : Header → Nat) (nonces : Nat → Nat)
    (p : Header) (e fuel : Nat)
    (hbig : ∀ x : Header, THRESHOLD ≤ hash x) :
    Header.child hash nonces p e fuel = none :=
  child_stuck hash p e hbig nonces fuel

/-- Witness for C6 amended at a concrete input. -/
theorem child_no_ceiling_amended_witness :
    (∀ x : Header, THRESHOLD ≤ bigHash x) ∧
      Header.child bigHash (fun _ => 0) Header.genesis 0 5 = none :=
  ⟨fun _ => Nat.le_refl _,
   child_no_ceiling_amended bigHash (fun _ => 0) Header.genesis 0 5
     (fun _ => Nat.le_refl _)⟩

-- C8 helper: successful construction of the contentious fork decomposes
-- into its six successive mining calls.

lemma build_inv (hash : Header → Nat) (ns : Nat → Nat) (fuel : Nat)
    (pre evens odds : List Header)
    (hb : build_contentious_forked_chain hash ns fuel = some (pre, evens, odds)) :
    ∃ (a1 a2 e1 e2 o1 o2 : Header) (ns1 ns2 ns3 ns4 ns5 ns6 : Nat → Nat),
      mine hash Header.genesis 2 ns fuel = some (a1, ns1) ∧
      mine hash a1 5 ns1 fuel = some (a2, ns2) ∧
      mine hash a2 1 ns2 fuel = some (e1, ns3) ∧
      mine hash e1 2 ns3 fuel = some (e2, ns4) ∧
      mine hash a2 2 ns4 fuel = some (o1, ns5) ∧
      mine hash o1 4 ns5 fuel = some (o2, ns6) ∧
      pre = [Header.genesis, a1, a2] ∧ evens = [e1, e2] ∧ odds = [o1, o2] := by
  unfold build_contentious_forked_chain at hb
  simp only [Option.bind_eq_some, Option.map_eq_some', Prod.exists] at hb
  obtain ⟨a1, ns1, hm1, a2, ns2, hm2, e1, ns3, hm3, e2, ns4, hm4,
    o1, ns5, hm5, o2, ns6, hm6, heq⟩ := hb
  injection heq with h1 hrest
  injection hrest with h2 h3
  exact ⟨a1, a2, e1, e2, o1, o2, ns1, ns2, ns3, ns4, ns5, ns6,
    hm1, hm2, hm3, hm4, hm5, hm6, h1.symm, h2.symm, h3.symm⟩

/-- Claim C8: whenever `build_contentious_forked_chain` succeeds it returns
a shared part starting with genesis and ending exactly at the fork height,
an even suffix and an odd suffix, all of whose blocks sit above the fork
height with even (respectively odd) states; the shared part extended by
either suffix is accepted by the base verifier from genesis, the
even-extended chain is accepted by the even policy and rejected by the odd
policy, and the odd-extended chain is accepted by the odd policy and
rejected by the even policy. -/
theorem forked_chain_spec (hash : Header → Nat) (ns : Nat → Nat) (fuel : Nat)
    (pre evens odds : List Header)
    (hb : build_contentious_forked_chain hash ns fuel = some (pre, evens, odds)) :
    pre.head? = some Header.genesis ∧
    (pre.getLast?).map Header.height = some FORK_HEIGHT ∧
    (∀ b ∈ evens, FORK_HEIGHT < b.height ∧ b.state % 2 = 0) ∧
    (∀ b ∈ odds, FORK_HEIGHT < b.height ∧ b.state % 2 = 1) ∧
    Header.verify_sub_chain hash Header.genesis (pre.tail ++ evens) = true ∧
    Header.verify_sub_chain hash Header.genesis (pre.tail ++ odds) = true ∧
    Header.verify_sub_chain_even hash Header.genesis (pre.tail ++ evens) = true ∧
    Header.verify_sub_chain_odd hash Header.genesis (pre.tail ++ evens) = false ∧
    Header.verify_sub_chain_odd hash Header.genesis (pre.tail ++ odds) = true ∧
    Header.verify_sub_chain_even hash Header.genesis (pre.tail ++ odds) = false := by
  obtain ⟨a1, a2, e1, e2, o1, o2, ns1, ns2, ns3, ns4, ns5, ns6,
    hm1, hm2, hm3, hm4, hm5, hm6, rfl, rfl, rfl⟩ :=
    build_inv hash ns fuel pre evens odds hb
  obtain ⟨p1, h1, x1, s1, t1⟩ := mine_sound hash Header.genesis 2 fuel ns ns1 a1 hm1
  obtain ⟨p2, h2, x2, s2, t2⟩ := mine_sound hash a1 5 fuel ns1 ns2 a2 hm2
  obtain ⟨p3, h3, x3, s3, t3⟩ := mine_sound hash a2 1 fuel ns2 ns3 e1 hm3
  obtain ⟨p4, h4, x4, s4, t4⟩ := mine_sound hash e1 2 fuel ns3 ns4 e2 hm4
  obtain ⟨p5, h5, x5, s5, t5⟩ := mine_sound hash a2 2 fuel ns4 ns5 o1 hm5
  obtain ⟨p6, h6, x6, s6, t6⟩ := mine_sound hash o1 4 fuel ns5 ns6 o2 hm6
  have iv1 := ibv_of_mine hash Header.genesis 2 fuel ns ns1 a1 hm1
  have iv2 := ibv_of_mine hash a1 5 fuel ns1 ns2 a2 hm2
  have iv3 := ibv_of_mine hash a2 1 fuel ns2 ns3 e1 hm3
  have iv4 := ibv_of_mine hash e1 2 fuel ns3 ns4 e2 hm4
  have iv5 := ibv_of_mine hash a2 2 fuel ns4 ns5 o1 hm5
  have iv6 := ibv_of_mine hash o1 4 fuel ns5 ns6 o2 hm6
  have e1h : a1.height = 1 := by rw [h1]; decide
  have e2h : a2.height = 2 := by rw [h2, e1h]; decide
  have e3h : e1.height = 3 := by rw [h3, e2h]; decide
  have e4h : e2.height = 4 := by rw [h4, e3h]; decide
  have e5h : o1.height = 3 := by rw [h5, e2h]; decide
  have e6h : o2.height = 4 := by rw [h6, e5h]; decide
  have s1' : a1.state = 2 := by rw [s1]; decide
  have s2' : a2.state = 7 := by rw [s2, s1']; decide
  have s3' : e1.state = 8 := by rw [s3, s2']; decide
  have s4' : e2.state = 10 := by rw [s4, s3']; decide
  have s5' : o1.state = 9 := by rw [s5, s2']; decide
  have s6' : o2.state = 13 := by rw [s6, s5']; decide
  refine ⟨rfl, ?_, ?_, ?_, ?_, ?_, ?_, ?_, ?_, ?_⟩
  · simp [List.getLast?, e2h, FORK_HEIGHT]
  · intro b hbm
    rcases List.mem_cons.mp hbm with rfl | hbm
    · exact ⟨by rw [e3h]; decide, by rw [s3']⟩
    rcases List.mem_cons.mp hbm with rfl | hbm
    · exact ⟨by rw [e4h]; decide, by rw [s4']⟩
    · exact absurd hbm (List.not_mem_nil b)
  · intro b hbm
    rcases List.mem_cons.mp hbm with rfl | hbm
    · exact ⟨by rw [e5h]; decide, by rw [s5']⟩
    rcases List.mem_cons.mp hbm with rfl | hbm
    · exact ⟨by rw [e6h]; decide, by rw [s6']⟩
    · exact absurd hbm (List.not_mem_nil b)
  · show Header.verify_sub_chain hash Header.genesis [a1, a2, e1, e2] = true
    rw [verify_cons, iv1, Bool.true_and, verify_cons, iv2, Bool.true_and,
      verify_cons, iv3, Bool.true_and, verify_cons, iv4, Bool.true_and]
    rfl
  · show Header.verify_sub_chain hash Header.genesis [a1, a2, o1, o2] = true
    rw [verify_cons, iv1, Bool.true_and, verify_cons, iv2, Bool.true_and,
      verify_cons, iv5, Bool.true_and, verify_cons, iv6, Bool.true_and]
    rfl
  · show Header.verify_sub_chain_even hash Header.genesis [a1, a2, e1, e2] = true
    simp [verify_even_cons, verify_even_nil, verify_block, e1h, e2h, e3h, e4h,
      s3', s4', iv1, iv2, iv3, iv4, FORK_HEIGHT]
  · show Header.verify_sub_chain_odd hash Header.genesis [a1, a2, e1, e2] = false
    simp [verify_odd_cons, verify_block, e1h, e2h, e3h, s3', iv1, iv2, iv3,
      FORK_HEIGHT]
  · show Header.verify_sub_chain_odd hash Header.genesis [a1, a2, o1, o2] = true
    simp [verify_odd_cons, verify_odd_nil, verify_block, e1h, e2h, e5h, e6h,
      s5', s6', iv1, iv2, iv5, iv6, FORK_HEIGHT]
  · show Header.verify_sub_chain_even hash Header.genesis [a1, a2, o1, o2] = false
    simp [verify_even_cons, verify_block, e1h, e2h, e5h, s5', iv1, iv2, iv5,
      FORK_HEIGHT]

/-- Witness for C8: with the stand-in digest, the constant-zero nonce
stream and one unit of fuel per mining call, the builder succeeds on a
concrete triple of sequences, on which the theorem yields the acceptance
of the even-extended chain by the even policy. -/
theorem forked_chain_spec_witness :
    build_contentious_forked_chain testHash (fun _ => 0) 1 =
        some ([Header.genesis, fkA1, fkA2], [fkE1, fkE2], [fkO1, fkO2]) ∧
      Header.verify_sub_chain_even testHash Header.genesis
          ([Header.genesis, fkA1, fkA2].tail ++ [fkE1, fkE2]) = true :=
  ⟨by decide,
   (forked_chain_spec testHash (fun _ => 0) 1 [Header.genesis, fkA1, fkA2]
      [fkE1, fkE2] [fkO1, fkO2] (by decide)).2.2.2.2.2.2.1⟩
